import Mathlib

/-!
# Verification of the `LABColor` core

A shallow embedding of `src/canvastools/ts/CanvasTools/Core/Colors/LABColor.ts`
over the real numbers (JavaScript `number` arithmetic is idealised as ℝ,
`Math.sqrt` as `Real.sqrt`), together with theorems settling the specified
properties of the CIE94 colour-difference formula and the LAB→XYZ transform.
-/

noncomputable section

/-- Modelled from the spec: the external `XYZColor` collaborator (its source is
not part of this fragment).  Only the constructor taking three real
tristimulus values and the `D65` white-point constant are consumed here. -/
structure XYZColor where
  x : ℝ
  y : ℝ
  z : ℝ

/-- Modelled from the spec: the D65 reference white point
(2° observer, `X≈95.047, Y=100, Z≈108.883`). -/
def XYZColor.D65 : XYZColor := ⟨95.047, 100, 108.883⟩

/-- Modelled from the spec: the external `RGBColor` collaborator; its internal
representation and conversions are out of scope, so it is an abstract triple. -/
structure RGBColor where
  r : ℝ
  g : ℝ
  b : ℝ

/-- Modelled from the spec: the external `SRGBColor` collaborator. -/
structure SRGBColor where
  r : ℝ
  g : ℝ
  b : ℝ

/-- The `LABColor` type: the CIE LAB colour value object.  The source stores the triple
in a private 3-element array `values = [l, a, b]`; since the class invariant
fixes the length at 3, the embedding uses a structure with the three
components as fields, and the accessors `l`, `a`, `b` are the projections. -/
structure LABColor where
  l : ℝ
  a : ℝ
  b : ℝ

namespace LABColor

/-- The private backing array `values` as a list, `[l, a, b]`. -/
def values (c : LABColor) : List ℝ := [c.l, c.a, c.b]

/-- Method `distanceTo` (lines 61–77 of the source): the CIE94 colour difference. -/
def distanceTo (c : LABColor) (color : LABColor) : ℝ :=
  let deltaL := c.l - color.l
  let deltaA := c.a - color.a
  let deltaB := c.b - color.b
  let c1 := Real.sqrt (c.a * c.a + c.b * c.b)
  let c2 := Real.sqrt (color.a * color.a + color.b * color.b)
  let deltaC := c1 - c2
  let deltaH0 := deltaA * deltaA + deltaB * deltaB - deltaC * deltaC
  let deltaH := if deltaH0 < 0 then 0 else Real.sqrt deltaH0
  let sc := 1.0 + 0.045 * c1
  let sh := 1.0 + 0.015 * c1
  let deltaLKlsl := deltaL / 1.0
  let deltaCkcsc := deltaC / sc
  let deltaHkhsh := deltaH / sh
  let i := deltaLKlsl * deltaLKlsl + deltaCkcsc * deltaCkcsc + deltaHkhsh * deltaHkhsh
  if i < 0 then 0 else Real.sqrt i

/-- The radicand of the hue-difference term before the clamp,
`Δa² + Δb² − ΔC²` (line 68 of the source). -/
def hueRadicand (c : LABColor) (color : LABColor) : ℝ :=
  let deltaA := c.a - color.a
  let deltaB := c.b - color.b
  let c1 := Real.sqrt (c.a * c.a + c.b * c.b)
  let c2 := Real.sqrt (color.a * color.a + color.b * color.b)
  let deltaC := c1 - c2
  deltaA * deltaA + deltaB * deltaB - deltaC * deltaC

/-- The combined sum `i` fed to the final square root (line 75 of the source),
with the hue term already clamped as in line 69. -/
def combinedSum (c : LABColor) (color : LABColor) : ℝ :=
  let deltaL := c.l - color.l
  let c1 := Real.sqrt (c.a * c.a + c.b * c.b)
  let c2 := Real.sqrt (color.a * color.a + color.b * color.b)
  let deltaC := c1 - c2
  let deltaH0 := hueRadicand c color
  let deltaH := if deltaH0 < 0 then 0 else Real.sqrt deltaH0
  let sc := 1.0 + 0.045 * c1
  let sh := 1.0 + 0.015 * c1
  (deltaL / 1.0) * (deltaL / 1.0) + (deltaC / sc) * (deltaC / sc) +
    (deltaH / sh) * (deltaH / sh)

/-- Method `distanceToGray` (lines 82–84 of the source). -/
def distanceToGray (c : LABColor) : ℝ :=
  Real.sqrt (c.a * c.a + c.b * c.b)

/-- Method `toArray` (lines 89–92 of the source): a copy of `values`, made by
mapping the identity over the backing array. -/
def toArray (c : LABColor) : List ℝ :=
  c.values.map (fun v => v)

/-- The per-component piecewise map applied in `toXYZ` (lines 102–105 of the
source): the cube when it exceeds the CIE threshold, linear form otherwise. -/
def xyzPiece (v : ℝ) : ℝ :=
  let v3 := v * v * v
  if v3 > 0.008856451 then v3 else (v - 16 / 116) / 7.787037

/-- Method `toXYZ` (lines 97–108 of the source). -/
def toXYZ (c : LABColor) : XYZColor :=
  let y := (c.l * 100 + 16) / 116
  let x := c.a / 5 + y
  let z := y - c.b / 2
  ⟨xyzPiece x * XYZColor.D65.x, xyzPiece y * XYZColor.D65.y,
    xyzPiece z * XYZColor.D65.z⟩

/-- Method `toRGB` (lines 113–115): delegates to the external XYZ→RGB conversion,
which is out of scope and therefore a parameter. -/
def toRGB (xyzToRgb : XYZColor → RGBColor) (c : LABColor) : RGBColor :=
  xyzToRgb (c.toXYZ)

/-- Method `toSRGB` (lines 120–122): delegates through XYZ→RGB→sRGB. -/
def toSRGB (xyzToRgb : XYZColor → RGBColor) (rgbToSrgb : RGBColor → SRGBColor)
    (c : LABColor) : SRGBColor :=
  rgbToSrgb (xyzToRgb (c.toXYZ))

/-- The CIE94 distance exactly as the specification words it: chromas from
each colour, hue radicand clamped to 0 by `max`, scale factors from the first
colour's chroma, and the final square root of the `max 0`-clamped sum. -/
def distanceToSpec (c : LABColor) (color : LABColor) : ℝ :=
  let deltaL := c.l - color.l
  let deltaA := c.a - color.a
  let deltaB := c.b - color.b
  let chroma1 := Real.sqrt (c.a ^ 2 + c.b ^ 2)
  let chroma2 := Real.sqrt (color.a ^ 2 + color.b ^ 2)
  let deltaC := chroma1 - chroma2
  let deltaH := Real.sqrt (max 0 (deltaA ^ 2 + deltaB ^ 2 - deltaC ^ 2))
  let sc := 1 + 0.045 * chroma1
  let sh := 1 + 0.015 * chroma1
  Real.sqrt (max 0 (deltaL ^ 2 + (deltaC / sc) ^ 2 + (deltaH / sh) ^ 2))

/-- The LAB→XYZ transform exactly as the specification words it:
`fy = (l·100 + 16)/116`, `fx = a/5 + fy`, `fz = fy − b/2`, each component
mapped to its cube when the cube exceeds `0.008856451` and to the linear form
`(f − 16/116)/7.787037` otherwise, then scaled by the D65 white point. -/
def toXYZSpec (c : LABColor) : XYZColor :=
  let fy := (c.l * 100 + 16) / 116
  let fx := c.a / 5 + fy
  let fz := fy - c.b / 2
  let ratio := fun f : ℝ => if f ^ 3 > 0.008856451 then f ^ 3 else (f - 16 / 116) / 7.787037
  ⟨ratio fx * XYZColor.D65.x, ratio fy * XYZColor.D65.y, ratio fz * XYZColor.D65.z⟩

end LABColor

/-- A heap of JavaScript arrays: addresses mapped to lists of numbers plus a
fresh-allocation counter.  This models the aliasing-visible part of the
source — the private backing array `values` and the array returned by
`toArray` — so the copy semantics of `toArray` can be stated. -/
structure Store where
  arrays : Nat → List ℝ
  next : Nat

/-- Allocate a fresh array holding `xs`; returns the new heap and address. -/
def Store.alloc (σ : Store) (xs : List ℝ) : Store × Nat :=
  (⟨Function.update σ.arrays σ.next xs, σ.next + 1⟩, σ.next)

/-- Read the array at address `r`. -/
def Store.read (σ : Store) (r : Nat) : List ℝ := σ.arrays r

/-- Mutate element `i` of the array at address `r` (a caller writing into a
returned array). -/
def Store.write (σ : Store) (r : Nat) (i : Nat) (v : ℝ) : Store :=
  ⟨Function.update σ.arrays r ((σ.arrays r).set i v), σ.next⟩

/-- The constructor at the heap level (line 50: `this.values = [l, a, b]`):
allocates the private backing array. -/
def Store.newLab (σ : Store) (l a b : ℝ) : Store × Nat :=
  σ.alloc [l, a, b]

/-- The `l` getter at the heap level (`values[0]`). -/
def Store.labL (σ : Store) (c : Nat) : ℝ := (σ.read c).getD 0 0

/-- The `a` getter at the heap level (`values[1]`). -/
def Store.labA (σ : Store) (c : Nat) : ℝ := (σ.read c).getD 1 0

/-- The `b` getter at the heap level (`values[2]`). -/
def Store.labB (σ : Store) (c : Nat) : ℝ := (σ.read c).getD 2 0

/-- Method `toArray` at the heap level: `this.values.map((v) => v)` reads the
backing array and allocates a fresh copy. -/
def Store.labToArray (σ : Store) (c : Nat) : Store × Nat :=
  σ.alloc ((σ.read c).map (fun v => v))

/-- The colour value stored at address `c`, as read by the getters. -/
def Store.labGet (σ : Store) (c : Nat) : LABColor :=
  ⟨σ.labL c, σ.labA c, σ.labB c⟩

/-- Method `distanceTo` at the heap level: reads both triples, writes nothing. -/
def Store.labDistanceTo (σ : Store) (c d : Nat) : Store × ℝ :=
  (σ, (σ.labGet c).distanceTo (σ.labGet d))

/-- Method `distanceToGray` at the heap level: reads the triple, writes nothing. -/
def Store.labDistanceToGray (σ : Store) (c : Nat) : Store × ℝ :=
  (σ, (σ.labGet c).distanceToGray)

/-- Method `toXYZ` at the heap level: reads the triple, writes nothing. -/
def Store.labToXYZ (σ : Store) (c : Nat) : Store × XYZColor :=
  (σ, (σ.labGet c).toXYZ)

/-- Method `toRGB` at the heap level, parametric in the external XYZ→RGB map. -/
def Store.labToRGB (f : XYZColor → RGBColor) (σ : Store) (c : Nat) :
    Store × RGBColor :=
  (σ, LABColor.toRGB f (σ.labGet c))

/-- Method `toSRGB` at the heap level, parametric in the external conversions. -/
def Store.labToSRGB (f : XYZColor → RGBColor) (g : RGBColor → SRGBColor)
    (σ : Store) (c : Nat) : Store × SRGBColor :=
  (σ, LABColor.toSRGB f g (σ.labGet c))

/-- Clamp-then-sqrt as written in the source (`x < 0 ? 0 : sqrt x`) agrees
with the spec's "clamp the radicand to 0 before the square root". -/
theorem ite_sqrt_eq_sqrt_max (x : ℝ) :
    (if x < 0 then (0 : ℝ) else Real.sqrt x) = Real.sqrt (max 0 x) := by
  by_cases h : x < 0
  · simp [h, max_eq_left h.le, Real.sqrt_zero]
  · simp [h, max_eq_right (le_of_not_lt h)]

/-- C1: `distanceTo` computes the CIE94 colour difference exactly as the
specification states it — chromas of each colour, `ΔC = C1 − C2`, hue radicand
`Δa² + Δb² − ΔC²` clamped to 0 before its square root, scale factors
`Sc = 1 + 0.045·C1` and `Sh = 1 + 0.015·C1` from the first colour's chroma
only, and result the square root of the clamped sum
`ΔL² + (ΔC/Sc)² + (ΔH/Sh)²`. -/
theorem distanceTo_eq_cie94_spec (c d : LABColor) :
    c.distanceTo d = c.distanceToSpec d := by
  simp only [LABColor.distanceTo, LABColor.distanceToSpec, ite_sqrt_eq_sqrt_max]
  ring_nf

/-- C2: `toXYZ` computes `fy = (l·100 + 16)/116`, `fx = a/5 + fy`,
`fz = fy − b/2`, maps each through the piecewise cube/linear rule with
threshold `0.008856451`, and scales by the D65 white-point components. -/
theorem toXYZ_eq_spec (c : LABColor) : c.toXYZ = c.toXYZSpec := by
  simp only [LABColor.toXYZ, LABColor.toXYZSpec, LABColor.xyzPiece, pow_three, mul_assoc]

/-- C6: `distanceToGray` equals `sqrt(a² + b²)`, depends only on the `a` and
`b` components (not on `l`), is `0` at `a = b = 0` and `1` at `a = 1, b = 0`. -/
theorem distanceToGray_spec (l₁ l₂ a b : ℝ) :
    LABColor.distanceToGray ⟨l₁, a, b⟩ = Real.sqrt (a * a + b * b) ∧
    LABColor.distanceToGray ⟨l₁, a, b⟩ = LABColor.distanceToGray ⟨l₂, a, b⟩ ∧
    LABColor.distanceToGray ⟨l₁, 0, 0⟩ = 0 ∧
    LABColor.distanceToGray ⟨l₁, 1, 0⟩ = 1 := by
  simp [LABColor.distanceToGray]

/-- C9: when the two colours share the same `a` and `b` components, all the
chroma and hue terms vanish and `distanceTo` reduces to `|l₁ − l₂|`. -/
theorem distanceTo_same_ab (l₁ l₂ a b : ℝ) :
    LABColor.distanceTo ⟨l₁, a, b⟩ ⟨l₂, a, b⟩ = |l₁ - l₂| := by
  simp only [LABColor.distanceTo, sub_self]
  norm_num
  rw [if_neg (not_lt.mpr (mul_self_nonneg _)), Real.sqrt_mul_self_eq_abs]

/-- The combined sum `i` is a sum of three squares, hence non-negative:
the final square root's argument is never negative. -/
theorem combinedSum_nonneg (c d : LABColor) : 0 ≤ c.combinedSum d := by
  simp only [LABColor.combinedSum]
  have h1 := mul_self_nonneg ((c.l - d.l) / 1.0)
  have h2 := mul_self_nonneg
    ((Real.sqrt (c.a * c.a + c.b * c.b) - Real.sqrt (d.a * d.a + d.b * d.b)) /
      (1.0 + 0.045 * Real.sqrt (c.a * c.a + c.b * c.b)))
  have h3 := mul_self_nonneg
    ((if c.hueRadicand d < 0 then 0 else Real.sqrt (c.hueRadicand d)) /
      (1.0 + 0.015 * Real.sqrt (c.a * c.a + c.b * c.b)))
  linarith

/-- Over the reals the hue radicand `Δa² + Δb² − ΔC²` is never negative:
by the reverse triangle (Cauchy–Schwarz) inequality in the AB-plane,
`|C1 − C2| ≤ sqrt(Δa² + Δb²)`.  (The source's clamp only guards against
floating-point round-off.) -/
theorem hueRadicand_nonneg (c d : LABColor) : 0 ≤ c.hueRadicand d := by
  simp only [LABColor.hueRadicand]
  have h1 : (0:ℝ) ≤ c.a * c.a + c.b * c.b := by nlinarith [mul_self_nonneg c.a, mul_self_nonneg c.b]
  have h2 : (0:ℝ) ≤ d.a * d.a + d.b * d.b := by nlinarith [mul_self_nonneg d.a, mul_self_nonneg d.b]
  have e1 := Real.mul_self_sqrt h1
  have e2 := Real.mul_self_sqrt h2
  have key : c.a * d.a + c.b * d.b ≤
      Real.sqrt (c.a * c.a + c.b * c.b) * Real.sqrt (d.a * d.a + d.b * d.b) := by
    have hb : (c.a * d.a + c.b * d.b) ^ 2 ≤ (c.a * c.a + c.b * c.b) * (d.a * d.a + d.b * d.b) := by
      nlinarith [sq_nonneg (c.a * d.b - c.b * d.a)]
    calc c.a * d.a + c.b * d.b ≤ |c.a * d.a + c.b * d.b| := le_abs_self _
      _ = Real.sqrt ((c.a * d.a + c.b * d.b) ^ 2) := (Real.sqrt_sq_eq_abs _).symm
      _ ≤ Real.sqrt ((c.a * c.a + c.b * c.b) * (d.a * d.a + d.b * d.b)) := Real.sqrt_le_sqrt hb
      _ = _ := Real.sqrt_mul h1 _
  nlinarith [key, e1, e2]

/-- `distanceTo` is the square root of the combined sum: since the sum is
non-negative, the final defensive clamp never fires over the reals. -/
theorem distanceTo_eq_sqrt_combinedSum (c d : LABColor) :
    c.distanceTo d = Real.sqrt (c.combinedSum d) := by
  have h := combinedSum_nonneg c d
  simp only [LABColor.combinedSum, LABColor.hueRadicand] at h ⊢
  simp only [LABColor.distanceTo]
  exact if_neg (not_lt.mpr h)

/-- A sum of three self-products of reals vanishes only if each factor does. -/
theorem sum_three_mul_self_eq_zero {x y z : ℝ} (h : x * x + y * y + z * z = 0) :
    x = 0 ∧ y = 0 ∧ z = 0 := by
  refine ⟨mul_self_eq_zero.mp ?_, mul_self_eq_zero.mp ?_, mul_self_eq_zero.mp ?_⟩ <;>
    nlinarith [mul_self_nonneg x, mul_self_nonneg y, mul_self_nonneg z]

/-- C4: `distanceTo` always returns a non-negative value, and neither square
root ever sees a negative argument: the hue radicand is non-negative over the
reals (so is its clamped form), the combined sum is non-negative, and the
result is the square root of that sum. -/
theorem distanceTo_nonneg (c d : LABColor) :
    0 ≤ c.distanceTo d ∧ 0 ≤ c.hueRadicand d ∧ 0 ≤ c.combinedSum d ∧
    c.distanceTo d = Real.sqrt (c.combinedSum d) := by
  refine ⟨?_, hueRadicand_nonneg c d, combinedSum_nonneg c d,
    distanceTo_eq_sqrt_combinedSum c d⟩
  rw [distanceTo_eq_sqrt_combinedSum]
  exact Real.sqrt_nonneg _

/-- C3: `distanceTo` vanishes exactly on numerically identical colours —
`X.distanceTo(Y) = 0` iff `X` and `Y` agree in all three components; in
particular every colour is at distance 0 from itself. -/
theorem distanceTo_eq_zero_iff (l₁ a₁ b₁ l₂ a₂ b₂ : ℝ) :
    LABColor.distanceTo ⟨l₁, a₁, b₁⟩ ⟨l₂, a₂, b₂⟩ = 0 ↔
      l₁ = l₂ ∧ a₁ = a₂ ∧ b₁ = b₂ := by
  constructor
  · intro h
    rw [distanceTo_eq_sqrt_combinedSum] at h
    have h0 : LABColor.combinedSum ⟨l₁, a₁, b₁⟩ ⟨l₂, a₂, b₂⟩ = 0 :=
      le_antisymm (Real.sqrt_eq_zero'.mp h) (combinedSum_nonneg _ _)
    have hH0 : 0 ≤ LABColor.hueRadicand ⟨l₁, a₁, b₁⟩ ⟨l₂, a₂, b₂⟩ :=
      hueRadicand_nonneg _ _
    simp only [LABColor.combinedSum] at h0
    obtain ⟨hx, hy, hz⟩ := sum_three_mul_self_eq_zero h0
    have hl : l₁ = l₂ := by
      rw [div_eq_zero_iff] at hx
      rcases hx with hx | hx
      · linarith
      · norm_num at hx
    have hsc : (1.0 + 0.045 * Real.sqrt (a₁ * a₁ + b₁ * b₁)) ≠ 0 := by positivity
    have hsh : (1.0 + 0.015 * Real.sqrt (a₁ * a₁ + b₁ * b₁)) ≠ 0 := by positivity
    have hC : Real.sqrt (a₁ * a₁ + b₁ * b₁) - Real.sqrt (a₂ * a₂ + b₂ * b₂) = 0 := by
      rw [div_eq_zero_iff] at hy
      rcases hy with hy | hy
      · exact hy
      · exact absurd hy hsc
    rw [if_neg (not_lt.mpr hH0), div_eq_zero_iff] at hz
    have hHeq : Real.sqrt (LABColor.hueRadicand ⟨l₁, a₁, b₁⟩ ⟨l₂, a₂, b₂⟩) = 0 := by
      rcases hz with hz | hz
      · exact hz
      · exact absurd hz hsh
    have hrad0 : LABColor.hueRadicand ⟨l₁, a₁, b₁⟩ ⟨l₂, a₂, b₂⟩ = 0 :=
      le_antisymm (Real.sqrt_eq_zero'.mp hHeq) hH0
    simp only [LABColor.hueRadicand] at hrad0
    rw [hC] at hrad0
    have ha : a₁ - a₂ = 0 := mul_self_eq_zero.mp
      (by nlinarith [mul_self_nonneg (a₁ - a₂), mul_self_nonneg (b₁ - b₂)])
    have hb : b₁ - b₂ = 0 := mul_self_eq_zero.mp
      (by nlinarith [mul_self_nonneg (a₁ - a₂), mul_self_nonneg (b₁ - b₂)])
    exact ⟨hl, by linarith, by linarith⟩
  · rintro ⟨rfl, rfl, rfl⟩
    have hz : LABColor.combinedSum ⟨l₁, a₁, b₁⟩ ⟨l₁, a₁, b₁⟩ = 0 := by
      simp [LABColor.combinedSum, LABColor.hueRadicand]
    rw [distanceTo_eq_sqrt_combinedSum, hz, Real.sqrt_zero]

/-- Evaluation of the first witness chroma radicand: `sqrt(3·3 + 4·4) = 5`. -/
theorem sqrt_three_four : Real.sqrt ((3:ℝ) * 3 + 4 * 4) = 5 := by
  rw [show (3:ℝ) * 3 + 4 * 4 = 5 ^ 2 by norm_num, Real.sqrt_sq (by norm_num : (0:ℝ) ≤ 5)]

/-- Evaluation of the zero chroma radicand: `sqrt(0·0 + 0·0) = 0`. -/
theorem sqrt_zero_zero : Real.sqrt ((0:ℝ) * 0 + 0 * 0) = 0 := by
  rw [show (0:ℝ) * 0 + 0 * 0 = 0 by norm_num, Real.sqrt_zero]

/-- C7: `distanceTo` is not symmetric — because `Sc` and `Sh` use only the
first colour's chroma, the colours `(0, 3, 4)` (chroma 5) and `(0, 0, 0)`
(chroma 0) give `X.distanceTo(Y) = 200/49` but `Y.distanceTo(X) = 5`. -/
theorem distanceTo_not_symmetric :
    ∃ X Y : LABColor, X.distanceToGray ≠ Y.distanceToGray ∧
      X.distanceTo Y ≠ Y.distanceTo X := by
  refine ⟨⟨0, 3, 4⟩, ⟨0, 0, 0⟩, ?_, ?_⟩
  · simp only [LABColor.distanceToGray, sqrt_three_four, sqrt_zero_zero]
    norm_num
  · have hne : LABColor.combinedSum ⟨0, 3, 4⟩ ⟨0, 0, 0⟩ ≠
        LABColor.combinedSum ⟨0, 0, 0⟩ ⟨0, 3, 4⟩ := by
      simp only [LABColor.combinedSum, LABColor.hueRadicand, sqrt_three_four, sqrt_zero_zero]
      norm_num [Real.sqrt_zero]
    rw [distanceTo_eq_sqrt_combinedSum, distanceTo_eq_sqrt_combinedSum]
    exact fun h => hne ((Real.sqrt_inj (combinedSum_nonneg _ _) (combinedSum_nonneg _ _)).mp h)

/-- C10: a neutral colour (`a = b = 0`) maps under `toXYZ` to a tristimulus
value proportional to the D65 white point: all three white-point ratios agree
because `fx = fy = fz`. -/
theorem toXYZ_neutral_proportional_d65 (l : ℝ) :
    (LABColor.toXYZ ⟨l, 0, 0⟩).x / XYZColor.D65.x =
      (LABColor.toXYZ ⟨l, 0, 0⟩).y / XYZColor.D65.y ∧
    (LABColor.toXYZ ⟨l, 0, 0⟩).y / XYZColor.D65.y =
      (LABColor.toXYZ ⟨l, 0, 0⟩).z / XYZColor.D65.z := by
  simp only [LABColor.toXYZ, XYZColor.D65]
  norm_num

/-- C5: `toArray` on a freshly constructed colour returns `[l, a, b]` in that
order, stored in a freshly allocated array distinct from the private backing
array; mutating any element of the returned array changes neither the `l`,
`a`, `b` accessors nor the result of a subsequent `toArray`. -/
theorem toArray_fresh_copy (σ₀ : Store) (l a b v : ℝ) (i : Nat) :
    ((σ₀.newLab l a b).1.labToArray (σ₀.newLab l a b).2).1.read
        ((σ₀.newLab l a b).1.labToArray (σ₀.newLab l a b).2).2 = [l, a, b] ∧
    ((σ₀.newLab l a b).1.labToArray (σ₀.newLab l a b).2).2 ≠ (σ₀.newLab l a b).2 ∧
    ((((σ₀.newLab l a b).1.labToArray (σ₀.newLab l a b).2).1.write
        ((σ₀.newLab l a b).1.labToArray (σ₀.newLab l a b).2).2 i v).labL
        (σ₀.newLab l a b).2 = l ∧
      (((σ₀.newLab l a b).1.labToArray (σ₀.newLab l a b).2).1.write
        ((σ₀.newLab l a b).1.labToArray (σ₀.newLab l a b).2).2 i v).labA
        (σ₀.newLab l a b).2 = a ∧
      (((σ₀.newLab l a b).1.labToArray (σ₀.newLab l a b).2).1.write
        ((σ₀.newLab l a b).1.labToArray (σ₀.newLab l a b).2).2 i v).labB
        (σ₀.newLab l a b).2 = b) ∧
    ((((σ₀.newLab l a b).1.labToArray (σ₀.newLab l a b).2).1.write
        ((σ₀.newLab l a b).1.labToArray (σ₀.newLab l a b).2).2 i v).labToArray
        (σ₀.newLab l a b).2).1.read
      ((((σ₀.newLab l a b).1.labToArray (σ₀.newLab l a b).2).1.write
        ((σ₀.newLab l a b).1.labToArray (σ₀.newLab l a b).2).2 i v).labToArray
        (σ₀.newLab l a b).2).2 = [l, a, b] := by
  simp [Store.newLab, Store.alloc, Store.labToArray, Store.read, Store.write,
    Store.labL, Store.labA, Store.labB, Function.update_apply]

/-- C8: the constructor stores the three caller-supplied components verbatim
for arbitrary (also out-of-range) reals, the accessors return exactly the
stored components, and none of `distanceTo`, `distanceToGray`, `toArray`,
`toXYZ`, `toRGB`, `toSRGB` writes to the heap cell holding the triple. -/
theorem constructor_verbatim_and_immutable (l a b : ℝ) (σ : Store) (c d : Nat)
    (f : XYZColor → RGBColor) (g : RGBColor → SRGBColor) :
    (LABColor.mk l a b).l = l ∧ (LABColor.mk l a b).a = a ∧
    (LABColor.mk l a b).b = b ∧
    LABColor.values (LABColor.mk l a b) = [l, a, b] ∧
    (σ.newLab l a b).1.read (σ.newLab l a b).2 = [l, a, b] ∧
    (σ.labDistanceTo c d).1 = σ ∧
    (σ.labDistanceToGray c).1 = σ ∧
    (σ.labToXYZ c).1 = σ ∧
    (Store.labToRGB f σ c).1 = σ ∧
    (Store.labToSRGB f g σ c).1 = σ ∧
    ((σ.newLab l a b).1.labToArray (σ.newLab l a b).2).1.read
        (σ.newLab l a b).2 = [l, a, b] := by
  simp [LABColor.values, Store.newLab, Store.alloc, Store.labToArray,
    Store.read, Store.labDistanceTo, Store.labDistanceToGray, Store.labToXYZ,
    Store.labToRGB, Store.labToSRGB, Function.update_apply]
